import Mathlib

/-!
Shallow embedding of the streaming TTS ingestion / playback pipeline of
YushuRobotEDU (frontend), covering:

* `ttsService.synthesizeTextStreamAdvanced` (src/frontend/src/services/ttsService.ts):
  the SSE read loop that buffers bytes, splits on newlines, keeps the
  incomplete trailing line, and JSON-parses `data: ` lines;
* `handleStreamEvent` / `updateResult` / `playStreamingAudio` /
  `updateStreamingAudio` (src/frontend/src/pages/TTS/components/TTSHistoryModal.tsx):
  chunk accumulation (base64 decode, append, blob rebuild) and the live
  audio-element swap;
* `playCurrentSlideAudio` / `handleAudioEnded`
  (src/frontend/src/pages/Documents/components/PPTPresentation.tsx):
  per-slide playback and auto-advance;
* `slideService.waitForPPTConversion` (document slide polling loop).

JS strings are modelled as `List Char` where the code manipulates their
characters, byte arrays (`Uint8Array`) as `List Nat`, object URLs by the
byte content of the blob they denote, and JS numbers used as sizes/indices
as `Nat`; media times (`currentTime`, `duration`) as `ℚ`.
-/

namespace Yushu

/-! ### base64 decoding: the JS `atob` + `charCodeAt` loop

`handleStreamEvent` decodes `event.data` with `atob` and turns the binary
string into a `Uint8Array` byte-by-byte.  We model the composite
(base64 text to byte list) directly; an invalid input makes `atob` throw,
modelled as `none` (the surrounding `try`/`catch` drops the chunk). -/

def b64Val (c : Char) : Option Nat :=
  if 'A' ≤ c ∧ c ≤ 'Z' then some (c.toNat - 65)
  else if 'a' ≤ c ∧ c ≤ 'z' then some (c.toNat - 97 + 26)
  else if '0' ≤ c ∧ c ≤ '9' then some (c.toNat - 48 + 52)
  else if c = '+' then some 62
  else if c = '/' then some 63
  else none

def b64Two (c1 c2 : Char) : Option (List Nat) := do
  let v1 ← b64Val c1
  let v2 ← b64Val c2
  pure [v1 * 4 + v2 / 16]

def b64Three (c1 c2 c3 : Char) : Option (List Nat) := do
  let v1 ← b64Val c1
  let v2 ← b64Val c2
  let v3 ← b64Val c3
  pure [v1 * 4 + v2 / 16, (v2 % 16) * 16 + v3 / 4]

def b64Four (c1 c2 c3 c4 : Char) : Option (List Nat) := do
  let v1 ← b64Val c1
  let v2 ← b64Val c2
  let v3 ← b64Val c3
  let v4 ← b64Val c4
  pure [v1 * 4 + v2 / 16, (v2 % 16) * 16 + v3 / 4, (v3 % 4) * 64 + v4]

def b64DecodeChars : List Char → Option (List Nat)
  | [] => some []
  | [c1, c2] => b64Two c1 c2
  | [c1, c2, '='] => b64Two c1 c2
  | [c1, c2, '=', '='] => b64Two c1 c2
  | [c1, c2, c3] => b64Three c1 c2 c3
  | [c1, c2, c3, '='] => b64Three c1 c2 c3
  | c1 :: c2 :: c3 :: c4 :: rest => do
      let b ← b64Four c1 c2 c3 c4
      let r ← b64DecodeChars rest
      pure (b ++ r)
  | _ => none

def base64Decode (s : String) : Option (List Nat) :=
  b64DecodeChars s.data

/-! ### Stream events and synthesis results

`TTSStreamEvent` (ttsService.ts lines 5–18) and `SynthesisResult`
(TTSHistoryModal.tsx lines 523–540).  The transient media-engine fields of
`SynthesisResult` (`mediaSource`, `sourceBuffer`, `audioContext`) are never
written or read by the embedded functions and are omitted.
`stream_audio_url` is an object URL for the rebuilt blob; we model the URL
by the blob's byte content. -/

structure TTSStreamEvent where
  type : String
  session_id : String
  data : Option String := none
  chunk_count : Option Nat := none
  total_size : Option Nat := none
  is_final : Option Bool := none
  error : Option String := none
  message : Option String := none
  provider : Option String := none
  voice : Option String := none
  text_length : Option Nat := none
  timestamp : Option Nat := none
deriving Repr, DecidableEq

structure SynthesisResult where
  id : String
  text : String
  provider : String
  voice : String
  duration : Nat
  audio_length : Nat
  file_size : Nat
  download_url : Option String := none
  timestamp : String
  status : Option String := none
  error : Option String := none
  audio_chunks : Option (List (List Nat)) := none
  stream_audio_url : Option (List Nat) := none
deriving Repr, DecidableEq

/-- A TS `Partial<SynthesisResult>` as passed to `updateResult`: each
field is present (`some`) or absent; a present field overwrites the
result's field under object spread. Only the fields `updateResult` is ever
called with (plus the audio fields, to state frame properties) appear. -/
structure ResultPatch where
  status : Option String := none
  error : Option String := none
  duration : Option Nat := none
  file_size : Option Nat := none
  audio_chunks : Option (List (List Nat)) := none
  stream_audio_url : Option (List Nat) := none
deriving Repr, DecidableEq

/-- The object spread `{ ...result, ...updates }`. -/
def applyPatch (r : SynthesisResult) (u : ResultPatch) : SynthesisResult :=
  { r with
    status := match u.status with | some s => some s | none => r.status
    error := match u.error with | some e => some e | none => r.error
    duration := match u.duration with | some d => d | none => r.duration
    file_size := match u.file_size with | some n => n | none => r.file_size
    audio_chunks := match u.audio_chunks with | some c => some c | none => r.audio_chunks
    stream_audio_url := match u.stream_audio_url with | some s => some s | none => r.stream_audio_url }

/-- `updateResult` (TTSHistoryModal.tsx lines 780–784): map over the
result list, merging the updates into the result with the matching id. -/
def updateResult (results : List SynthesisResult) (resultId : String) (u : ResultPatch) :
    List SynthesisResult :=
  results.map fun result => if result.id = resultId then applyPatch result u else result

/-- The playback side effect issued from inside the `audio_chunk` branch:
`playStreamingAudio` when `event.chunk_count === 1`, otherwise
`updateStreamingAudio`.  The payload is the object URL of the rebuilt
blob, modelled by its bytes. -/
inductive PlayAction where
  | start (resultId : String) (audioUrl : List Nat)
  | update (resultId : String) (audioUrl : List Nat)
deriving Repr, DecidableEq

def PlayAction.isStart : PlayAction → Bool
  | .start _ _ => true
  | .update _ _ => false

/-- The body of `setResults(prev => prev.map(...))` in the `audio_chunk`
branch (TTSHistoryModal.tsx lines 705–738), together with the play/update
calls made from inside the map callback for each matching result. -/
def ingestChunkInto (audioArray : List Nat) (chunkCount : Option Nat) (resultId : String) :
    List SynthesisResult → List SynthesisResult × List PlayAction
  | [] => ([], [])
  | result :: rest =>
    let (rs, acts) := ingestChunkInto audioArray chunkCount resultId rest
    if result.id = resultId then
      let newChunks := (result.audio_chunks.getD []) ++ [audioArray]
      let totalSize := (newChunks.map List.length).sum
      let combined := newChunks.flatten
      let action := if chunkCount = some 1 then PlayAction.start resultId combined
                    else PlayAction.update resultId combined
      ({ result with
          audio_chunks := some newChunks
          file_size := totalSize
          stream_audio_url := some combined } :: rs,
       action :: acts)
    else (result :: rs, acts)

/-- `handleStreamEvent` (TTSHistoryModal.tsx lines 685–777), restricted to
its effect on the results list and the playback calls it issues.  The
`audio_chunk` branch decodes base64 (a decode failure is caught: chunk
dropped, nothing mutated), appends the chunk, recomputes the total size
and the combined blob, and starts or updates playback depending on
`chunk_count === 1`.  `start`/`complete`/`error` go through
`updateResult`; `end`/`heartbeat`/default touch nothing. -/
def handleStreamEvent (results : List SynthesisResult) (event : TTSStreamEvent)
    (resultId : String) : List SynthesisResult × List PlayAction :=
  if event.type = "start" then
    (updateResult results resultId { status := some "streaming" }, [])
  else if event.type = "audio_chunk" then
    match event.data with
    | none => (results, [])
    | some d =>
      match base64Decode d with
      | none => (results, [])
      | some audioArray => ingestChunkInto audioArray event.chunk_count resultId results
  else if event.type = "complete" then
    (updateResult results resultId { status := some "completed", duration := some 0 }, [])
  else if event.type = "error" then
    (updateResult results resultId
      { status := some "error", error := some (event.error.getD "未知错误") }, [])
  else
    (results, [])

/-- Folding a whole event sequence through `handleStreamEvent`
(the per-event callback of `synthesizeTextStreamAdvanced`). -/
def ingestEvents (results : List SynthesisResult) (events : List TTSStreamEvent)
    (resultId : String) : List SynthesisResult :=
  events.foldl (fun rs ev => (handleStreamEvent rs ev resultId).1) results

/-! ### Audio elements and the TTS modal's playback state

An `HTMLAudioElement` is modelled by its source (type `α`: blob bytes for
the TTS modal, a document-id/page pair for the presentation), its `paused`
flag and its `currentTime`.  `new Audio(url)` yields a paused element at
time 0; a rejected `play()` is caught by the code, leaving it paused. -/

structure AudioElem (α : Type) where
  src : α
  paused : Bool
  currentTime : ℚ
deriving Repr, DecidableEq

/-- Component state of the TTS history modal relevant to playback:
the two element refs (`audioRef`, `streamingAudioRef`), the two id labels
(`currentPlaying`, `streamingAudio`), plus a ghost list `detached` of
elements whose reference was dropped (their handle released) so that
"at most one live element" is expressible over everything ever created. -/
structure TTSPlaybackState where
  audioRef : Option (AudioElem (List Nat))
  streamingAudioRef : Option (AudioElem (List Nat))
  currentPlaying : Option String
  streamingAudio : Option String
  detached : List (AudioElem (List Nat))
deriving Repr, DecidableEq

def optLive {α : Type} : Option (AudioElem α) → Nat
  | some e => if e.paused then 0 else 1
  | none => 0

/-- Number of non-paused audio elements reachable in the state,
detached (released) ones included. -/
def liveCount (st : TTSPlaybackState) : Nat :=
  optLive st.audioRef + optLive st.streamingAudioRef
    + st.detached.countP (fun e => !e.paused)

/-- `playStreamingAudio` (TTSHistoryModal.tsx lines 787–827): pause the
current streaming element and the main element, create a fresh element for
the new url and call `play()` on it.  `playOk` says whether that `play()`
resolves (on rejection the code catches and shows a message, the new
element stays paused and the labels are not set); on success the `onplay`
handler sets both id labels.  The old streaming element's reference is
overwritten, so it moves to `detached`, paused. -/
def playStreamingAudio (st : TTSPlaybackState) (resultId : String) (audioUrl : List Nat)
    (playOk : Bool) : TTSPlaybackState :=
  let detached' := match st.streamingAudioRef with
    | some e => { e with paused := true } :: st.detached
    | none => st.detached
  { audioRef := st.audioRef.map fun e => { e with paused := true }
    streamingAudioRef := some { src := audioUrl, paused := !playOk, currentTime := 0 }
    currentPlaying := if playOk then some resultId else st.currentPlaying
    streamingAudio := if playOk then some resultId else st.streamingAudio
    detached := detached' }

/-- `updateStreamingAudio` (TTSHistoryModal.tsx lines 830–878): guarded by
`streamingAudio === resultId && streamingAudioRef.current`.  Captures the
old element's `currentTime` and `!paused`, creates a new element for the
new url; once its data is loaded (`onloadeddata`, with the new media's
duration `newDuration`) it restores the position if
`0 < currentTime < newDuration` and calls `play()` if the old one was
playing (`playOk` = that `play()` resolves).  The old element is paused
and its reference replaced. -/
def updateStreamingAudio (st : TTSPlaybackState) (resultId : String) (newAudioUrl : List Nat)
    (newDuration : ℚ) (playOk : Bool) : TTSPlaybackState :=
  if st.streamingAudio = some resultId then
    match st.streamingAudioRef with
    | some e =>
      let t := e.currentTime
      let wasPlaying := !e.paused
      let t' := if 0 < t ∧ t < newDuration then t else 0
      let newElem : AudioElem (List Nat) :=
        { src := newAudioUrl
          currentTime := t'
          paused := if wasPlaying then !playOk else true }
      { st with
        streamingAudioRef := some newElem
        detached := { e with paused := true } :: st.detached
        currentPlaying := if wasPlaying && playOk then some resultId else st.currentPlaying
        streamingAudio := if wasPlaying && playOk then some resultId else st.streamingAudio }
    | none => st
  else st

/-! ### PPT presentation playback and the auto-advance sequencer -/

/-- `slideService.getSlideAudioUrl(documentId, pageNumber)`: the per-page
audio URL, modelled by the pair that determines it. -/
def getSlideAudioUrl (documentId : String) (pageNumber : Nat) : String × Nat :=
  (documentId, pageNumber)

/-- Primitive operations performed on the single `<audio>` element of the
presentation, in program order, so that "the previous playback is stopped
before the new one starts" is a statement about the emitted trace. -/
inductive MediaOp where
  | pauseElem
  | resetTime
  | setSrc (url : String × Nat)
  | playAttempt (url : String × Nat)
deriving Repr, DecidableEq

/-- Component state of `PPTPresentation` relevant to playback. -/
structure PPTState where
  audioRef : Option (AudioElem (String × Nat))
  isPlayingAudio : Bool
  currentAudioPage : Option Nat
  currentSlideIndex : Nat
  slidesLen : Nat
deriving Repr, DecidableEq

/-- `playCurrentSlideAudio` (PPTPresentation.tsx lines 331–365).  If the
current page is already playing, toggle-pause it.  Otherwise pause the
element and reset `currentTime` to 0, set its `src` to the current page's
url and call `play()` (`playOk` = the awaited `play()` resolves; a
rejection is caught with a warning, leaving the state flags untouched).
Returns the new state and the trace of media operations performed. -/
def playCurrentSlideAudio (st : PPTState) (documentId : String) (playOk : Bool) :
    PPTState × List MediaOp :=
  let pageNumber := st.currentSlideIndex + 1
  if st.isPlayingAudio ∧ st.currentAudioPage = some pageNumber then
    match st.audioRef with
    | some e =>
      ({ st with audioRef := some { e with paused := true }
                 isPlayingAudio := false
                 currentAudioPage := none }, [.pauseElem])
    | none => (st, [])
  else
    match st.audioRef with
    | some _ =>
      let audioUrl := getSlideAudioUrl documentId pageNumber
      let e1 : AudioElem (String × Nat) :=
        { src := audioUrl, paused := true, currentTime := 0 }
      if playOk then
        ({ st with audioRef := some { e1 with paused := false }
                   isPlayingAudio := true
                   currentAudioPage := some pageNumber },
         [.pauseElem, .resetTime, .setSrc audioUrl, .playAttempt audioUrl])
      else
        ({ st with audioRef := some e1 },
         [.pauseElem, .resetTime, .setSrc audioUrl, .playAttempt audioUrl])
    | none => (st, [])

/-- `handleAudioEnded` (PPTPresentation.tsx lines 388–414): clear the
playing flags, and if `currentSlideIndex + 1 < slides.length` advance the
slide index to exactly `currentSlideIndex + 1` and make one `play()`
attempt on the next page's audio (`playNextOk`); a rejected attempt is
caught with a log and auto-play simply stops.  There is no retry loop. -/
def handleAudioEnded (st : PPTState) (documentId : String) (playNextOk : Bool) : PPTState :=
  let st0 := { st with isPlayingAudio := false, currentAudioPage := none }
  let nextPage := st.currentSlideIndex + 1
  if nextPage < st.slidesLen then
    let st1 := { st0 with currentSlideIndex := nextPage }
    let nextPageNumber := nextPage + 1
    match st1.audioRef with
    | some e =>
      let url := getSlideAudioUrl documentId nextPageNumber
      if playNextOk then
        { st1 with audioRef := some { e with src := url, paused := false, currentTime := 0 }
                   isPlayingAudio := true
                   currentAudioPage := some nextPageNumber }
      else
        { st1 with audioRef := some { e with src := url, paused := true, currentTime := 0 } }
    | none => st1
  else st0

/-- Modelled from the spec: the sequencer behaviour the spec describes for
an unready next segment — poll (bounded backoff) until it becomes ready or
a maximum number of polls elapses, and start it iff some poll within the
bound finds it ready.  `avail k` says whether the k-th check would find
the segment's audio available (`avail 0` is the immediate attempt). -/
def specNextSegmentStarts (avail : Nat → Bool) (maxPolls : Nat) : Bool :=
  (List.range (maxPolls + 1)).any avail

/-! ### `slideService.waitForPPTConversion` (src/unnamed/part_015 lines 119–150) -/

structure Slide where
  image_url : Option String
deriving Repr, DecidableEq

/-- Result of one `getDocumentSlides` call: `fail` models a thrown/network
error (the `catch` branch), `ok` a response with its slide list. -/
inductive PollRes where
  | fail
  | ok (slides : List Slide)
deriving Repr, DecidableEq

/-- The loop body's success test: slides non-empty, the first slide has an
`image_url`, and `checkImageExists` on it reports true (`imgOk`). -/
def slideReady (pr : PollRes) (imgOk : Bool) : Option (List Slide) :=
  match pr with
  | .fail => none
  | .ok slides =>
    match slides with
    | [] => none
    | first :: _ =>
      match first.image_url with
      | none => none
      | some _ => if imgOk then some slides else none

inductive ConvOutcome where
  | success (slides : List Slide) (atPoll : Nat)
  | timeoutError
deriving Repr, DecidableEq

/-- The fixed `checkInterval` of the loop: 3000 ms. -/
def checkInterval : Nat := 3000

/-- `waitForPPTConversion(documentId, maxWaitTime)`: while
`Date.now() - startTime < maxWaitTime`, poll `getDocumentSlides`
(the i-th call returns `poll i` after `pollDur i` elapsed ms), return
success when the readiness test passes, otherwise — also when the poll
throws — sleep `checkInterval` and retry; once the loop guard fails,
throw the timeout error.  The value is the outcome paired with the
elapsed time at which it is produced; `fuel` bounds the unrolling
(`none` = fuel exhausted, the real loop would keep iterating). -/
def waitForPPTConversion (poll : Nat → PollRes) (imgOk : Nat → Bool) (pollDur : Nat → Nat)
    (maxWaitTime : Nat) : Nat → Nat → Nat → Option (ConvOutcome × Nat)
  | 0, _, _ => none
  | fuel + 1, elapsed, i =>
    if elapsed < maxWaitTime then
      let e1 := elapsed + pollDur i
      match slideReady (poll i) (imgOk i) with
      | some slides => some (.success slides i, e1)
      | none => waitForPPTConversion poll imgOk pollDur maxWaitTime fuel (e1 + checkInterval) (i + 1)
    else
      some (.timeoutError, elapsed)

/-! ### The SSE read loop of `synthesizeTextStreamAdvanced`
(ttsService.ts lines 119–147)

Each network read appends its decoded text to `buffer`; `buffer` is split
on `'\n'`, the last (possibly incomplete) piece is put back into `buffer`
(`lines.pop()`), and every complete line starting with `"data: "` has its
remainder JSON-parsed; a parse failure is logged and the line skipped. -/

/-- JS `s.split('\n')` followed by `pop()`: the complete lines and the
trailing piece after the last newline. -/
def splitNl : List Char → List (List Char) × List Char
  | [] => ([], [])
  | c :: rest =>
    let (ls, buf) := splitNl rest
    if c = '\n' then ([] :: ls, buf)
    else
      match ls with
      | l :: ls' => ((c :: l) :: ls', buf)
      | [] => ([], c :: buf)

/-- `line.startsWith('data: ')`. -/
def isDataLine (l : List Char) : Bool :=
  l.take 6 = ['d', 'a', 't', 'a', ':', ' ']

/-- Process a batch of complete lines: for each `data: ` line, JSON-parse
the payload (`parse`, modelling `JSON.parse` on the sliced string: `none`
= it throws, the catch logs and the loop continues) and deliver the
parsed events in order. -/
def processLines {E : Type} (parse : List Char → Option E) (lines : List (List Char)) :
    List E :=
  lines.filterMap fun l => if isDataLine l then parse (l.drop 6) else none

/-- Parser state across reads: the retained incomplete line and the events
delivered to the callback so far. -/
structure StreamState (E : Type) where
  buffer : List Char
  events : List E
deriving Repr, DecidableEq

/-- One iteration of the read loop for one network read. -/
def processRead {E : Type} (parse : List Char → Option E) (st : StreamState E)
    (chunk : List Char) : StreamState E :=
  let (ls, buf) := splitNl (st.buffer ++ chunk)
  { buffer := buf, events := st.events ++ processLines parse ls }

/-- The whole read loop over a list of network reads. -/
def processReads {E : Type} (parse : List Char → Option E) (st : StreamState E)
    (reads : List (List Char)) : StreamState E :=
  reads.foldl (processRead parse) st

/-- Glue a retained buffer onto the first of a later batch of lines. -/
def mergeFirst (buf : List Char) : List (List Char) → List (List Char)
  | [] => []
  | l :: ls => (buf ++ l) :: ls

/-! ### Concrete fixtures used by witnesses and counterexamples -/

/-- A fresh streaming result as created by `handleSynthesizeStream`
(TTSHistoryModal.tsx lines 654–666). -/
def freshResult : SynthesisResult :=
  { id := "r1", text := "hello world", provider := "aliyun", voice := "v1",
    duration := 0, audio_length := 0, file_size := 0, timestamp := "t0",
    status := some "pending", audio_chunks := some [] }

/-- `audio_chunk` event 1, base64 of the bytes of "Hello". -/
def evHello : TTSStreamEvent :=
  { type := "audio_chunk", session_id := "s1", data := some "SGVsbG8=",
    chunk_count := some 1 }

/-- `audio_chunk` event 2, base64 of the bytes of "World". -/
def evWorld : TTSStreamEvent :=
  { type := "audio_chunk", session_id := "s1", data := some "V29ybGQ=",
    chunk_count := some 2 }

/-- Results after ingesting `evHello` once. -/
def c1Once : List SynthesisResult := (handleStreamEvent [freshResult] evHello "r1").1

/-- Results after re-ingesting the same sequence-1 event a second time. -/
def c1Twice : List SynthesisResult := (handleStreamEvent c1Once evHello "r1").1

/-! ### Fixtures for the playback, sequencer and poller claims -/

/-- A TTS-modal playback state with both elements live (mid-playback). -/
def demoTTSState : TTSPlaybackState :=
  { audioRef := some { src := [9], paused := false, currentTime := 0 }
    streamingAudioRef := some { src := [1, 2], paused := false, currentTime := 1 }
    currentPlaying := some "r0", streamingAudio := some "r0", detached := [] }

/-- A presentation state playing page 2 while the user is on slide 0
(requested page 1): a re-entrant play request for a different segment. -/
def demoPPTState : PPTState :=
  { audioRef := some { src := ("doc", 2), paused := false, currentTime := 5 }
    isPlayingAudio := true, currentAudioPage := some 2
    currentSlideIndex := 0, slidesLen := 4 }

/-- A streaming-modal state mid-playback at position 3 of result "r1". -/
def demoSwapState : TTSPlaybackState :=
  { audioRef := none
    streamingAudioRef := some { src := [1], paused := false, currentTime := 3 }
    currentPlaying := some "r1", streamingAudio := some "r1", detached := [] }

/-- A presentation state whose current (0th) slide's audio just ended,
with a third slide still pending. -/
def c5PPTState : PPTState :=
  { audioRef := some { src := ("doc", 1), paused := true, currentTime := 0 }
    isPlayingAudio := false, currentAudioPage := none
    currentSlideIndex := 0, slidesLen := 3 }

/-- Segment availability: not available on the immediate attempt, becomes
available on the next check. -/
def c5Avail : Nat → Bool := fun k => decide (k = 1)

def c6Slide : Slide := { image_url := some "img1.png" }

/-- Poll results: the first `getDocumentSlides` call throws, the second
succeeds with a fetchable first artifact. -/
def c6Poll : Nat → PollRes := fun i => if i = 0 then PollRes.fail else PollRes.ok [c6Slide]

/-- Poll results for a job that never completes. -/
def c6PollFail : Nat → PollRes := fun _ => PollRes.fail

/-! ### Lemmas about the newline splitter -/

theorem splitNl_append (a b : List Char) :
    splitNl (a ++ b) =
      ((splitNl a).1 ++ mergeFirst (splitNl a).2 (splitNl b).1,
       if (splitNl b).1 = [] then (splitNl a).2 ++ (splitNl b).2 else (splitNl b).2) := by
  induction a with
  | nil =>
    rcases hsb : splitNl b with ⟨lb, bb⟩
    cases lb with
    | nil => simp [splitNl, mergeFirst, hsb]
    | cons l ls => simp [splitNl, mergeFirst, hsb]
  | cons c a ih =>
    rcases hsa : splitNl a with ⟨la, ba⟩
    rcases hsb : splitNl b with ⟨lb, bb⟩
    simp only [hsa, hsb] at ih ⊢
    by_cases hc : c = '\n'
    · subst hc
      simp [List.cons_append, splitNl, ih, hsa]
    · cases la with
      | nil =>
        cases lb with
        | nil => simp [List.cons_append, splitNl, ih, hsa, if_neg hc, mergeFirst]
        | cons l ls => simp [List.cons_append, splitNl, ih, hsa, if_neg hc, mergeFirst]
      | cons l ls =>
        simp [List.cons_append, splitNl, ih, hsa, if_neg hc, mergeFirst]

/-- A chunk without newlines splits to no complete line and itself as the
retained buffer. -/
theorem splitNl_of_no_newline (l : List Char) (h : ∀ c ∈ l, c ≠ '\n') :
    splitNl l = ([], l) := by
  induction l with
  | nil => simp [splitNl]
  | cons c rest ih =>
    have hc : c ≠ '\n' := h c (by simp)
    have hrest : ∀ x ∈ rest, x ≠ '\n' := fun x hx => h x (by simp [hx])
    simp [splitNl, ih hrest, if_neg hc]

/-- The retained buffer never contains a newline. -/
theorem splitNl_snd_no_newline (l : List Char) : ∀ c ∈ (splitNl l).2, c ≠ '\n' := by
  induction l with
  | nil => simp [splitNl]
  | cons c rest ih =>
    by_cases hc : c = '\n'
    · subst hc
      simpa [splitNl] using ih
    · simp only [splitNl, if_neg hc]
      cases hla : (splitNl rest).1 with
      | nil =>
        intro x hx
        rcases List.mem_cons.mp (by simpa [hla] using hx) with h1 | h2
        · simpa [h1] using hc
        · exact ih x (by simp [h2])
      | cons l ls =>
        intro x hx
        exact ih x (by simpa [hla] using hx)

theorem processLines_append {E : Type} (parse : List Char → Option E)
    (l₁ l₂ : List (List Char)) :
    processLines parse (l₁ ++ l₂) = processLines parse l₁ ++ processLines parse l₂ := by
  simp [processLines]

/-- Processing two consecutive network reads is the same as processing
their concatenation as one read: the retained buffer carries the split
frame across the boundary. -/
theorem processRead_append {E : Type} (parse : List Char → Option E)
    (st : StreamState E) (a b : List Char) :
    processRead parse (processRead parse st a) b = processRead parse st (a ++ b) := by
  have hnn := splitNl_snd_no_newline (st.buffer ++ a)
  have hsa : splitNl ((splitNl (st.buffer ++ a)).2 ++ b) =
      (mergeFirst (splitNl (st.buffer ++ a)).2 (splitNl b).1,
       if (splitNl b).1 = [] then (splitNl (st.buffer ++ a)).2 ++ (splitNl b).2
       else (splitNl b).2) := by
    rw [splitNl_append, splitNl_of_no_newline _ hnn]
    simp
  have hsb : splitNl (st.buffer ++ (a ++ b)) =
      ((splitNl (st.buffer ++ a)).1 ++ mergeFirst (splitNl (st.buffer ++ a)).2 (splitNl b).1,
       if (splitNl b).1 = [] then (splitNl (st.buffer ++ a)).2 ++ (splitNl b).2
       else (splitNl b).2) := by
    rw [← List.append_assoc, splitNl_append]
  simp [processRead, hsa, hsb, processLines_append]

/-- The read loop over any list of reads equals one shot over their
concatenation. -/
theorem processReads_flatten {E : Type} (parse : List Char → Option E)
    (st : StreamState E) (reads : List (List Char))
    (hbuf : ∀ c ∈ st.buffer, c ≠ '\n') :
    processReads parse st reads = processRead parse st reads.flatten := by
  induction reads generalizing st with
  | nil =>
    simp [processReads, processRead, splitNl_append, splitNl_of_no_newline _ hbuf,
      processLines, mergeFirst, splitNl]
  | cons r rs ih =>
    simp only [processReads, List.foldl_cons, List.flatten_cons]
    rw [show List.foldl (processRead parse) (processRead parse st r) rs
          = processReads parse (processRead parse st r) rs from rfl,
        ih _ (by simpa [processRead] using splitNl_snd_no_newline (st.buffer ++ r)),
        processRead_append]

end Yushu

namespace Yushu

/-! ### Claim theorems for the stream frame parser -/

/-- C7: for every byte stream delivered in arbitrary-sized reads, the
events delivered equal those obtained from the complete lines of the full
concatenated stream — a record split across reads is parsed exactly once,
only after its terminating newline is buffered, and the incomplete
trailing line is retained in the buffer. -/
theorem frame_reassembly {E : Type} (parse : List Char → Option E)
    (reads : List (List Char)) :
    processReads parse ⟨[], []⟩ reads =
      { buffer := (splitNl reads.flatten).2
        events := processLines parse (splitNl reads.flatten).1 } := by
  rw [processReads_flatten parse ⟨[], []⟩ reads (by simp)]
  simp [processRead]

/-- C8: a single malformed `data: ` record (payload on which `JSON.parse`
throws) is dropped while every other record of the stream is still
delivered, in order — the stream is not aborted. -/
theorem malformed_record_skipped {E : Type} (parse : List Char → Option E)
    (reads : List (List Char)) (pre post : List (List Char)) (bad : List Char)
    (hsplit : (splitNl reads.flatten).1 = pre ++ bad :: post)
    (hdata : isDataLine bad = true) (hbad : parse (bad.drop 6) = none) :
    (processReads parse ⟨[], []⟩ reads).events =
      processLines parse pre ++ processLines parse post := by
  rw [processReads_flatten parse ⟨[], []⟩ reads (by simp)]
  simp only [processRead]
  simp [processLines, hsplit, List.filterMap_append, hdata, hbad]

/-- Witness for C8: the stream `"data: 1\ndata: x\ndata: 1\n"` delivered in
two reads that split the middle (malformed) record; both well-formed
records are delivered. -/
theorem malformed_record_skipped_witness :
    (processReads (fun l => if l = ['1'] then some 1 else none)
        (⟨[], []⟩ : StreamState Nat)
        ["data: 1\ndata".data, ": x\ndata: 1\n".data]).events = [1, 1] := by
  have h := malformed_record_skipped (fun l => if l = ['1'] then some (1 : Nat) else none)
    ["data: 1\ndata".data, ": x\ndata: 1\n".data]
    (["data: 1".data]) (["data: 1".data]) ("data: x".data)
    (by decide) (by decide) (by decide)
  rw [h]
  decide

end Yushu

namespace Yushu

/-! ### Lemmas about chunk ingestion -/

theorem ingestChunkInto_singleton (b : List Nat) (cc : Option Nat) (rid : String)
    (r : SynthesisResult) (hid : r.id = rid) :
    ingestChunkInto b cc rid [r] =
      ([{ r with
          audio_chunks := some (r.audio_chunks.getD [] ++ [b])
          file_size := ((r.audio_chunks.getD [] ++ [b]).map List.length).sum
          stream_audio_url := some ((r.audio_chunks.getD [] ++ [b]).flatten) }],
       [if cc = some 1 then PlayAction.start rid ((r.audio_chunks.getD [] ++ [b]).flatten)
        else PlayAction.update rid ((r.audio_chunks.getD [] ++ [b]).flatten)]) := by
  simp [ingestChunkInto, hid]

theorem handleStreamEvent_chunk (results : List SynthesisResult) (ev : TTSStreamEvent)
    (rid : String) (d : String) (b : List Nat)
    (ht : ev.type = "audio_chunk") (hd : ev.data = some d) (hb : base64Decode d = some b) :
    handleStreamEvent results ev rid = ingestChunkInto b ev.chunk_count rid results := by
  simp [handleStreamEvent, ht, hd, hb]

theorem ingestChunkInto_cons (b : List Nat) (cc : Option Nat) (rid : String)
    (r : SynthesisResult) (rest : List SynthesisResult) :
    ingestChunkInto b cc rid (r :: rest) =
      (if r.id = rid
        then { r with
            audio_chunks := some (r.audio_chunks.getD [] ++ [b])
            file_size := ((r.audio_chunks.getD [] ++ [b]).map List.length).sum
            stream_audio_url := some ((r.audio_chunks.getD [] ++ [b]).flatten) }
          :: (ingestChunkInto b cc rid rest).1
        else r :: (ingestChunkInto b cc rid rest).1,
       if r.id = rid
        then (if cc = some 1
            then PlayAction.start rid ((r.audio_chunks.getD [] ++ [b]).flatten)
            else PlayAction.update rid ((r.audio_chunks.getD [] ++ [b]).flatten))
          :: (ingestChunkInto b cc rid rest).2
        else (ingestChunkInto b cc rid rest).2) := by
  by_cases h : r.id = rid <;> simp [ingestChunkInto, h]

/-- Running a fresh single-result list through a sequence of decodable
`audio_chunk` events accumulates exactly the decoded payloads, in order. -/
theorem ingestEvents_concat (evs : List TTSStreamEvent) (rid : String) :
    ∀ (r : SynthesisResult) (cs : List (List Nat)), r.id = rid → r.audio_chunks = some cs →
    (∀ ev ∈ evs, ev.type = "audio_chunk" ∧ (ev.data.bind base64Decode).isSome) →
    ∃ r', ingestEvents [r] evs rid = [r'] ∧ r'.id = rid ∧
      r'.audio_chunks =
        some (cs ++ evs.map fun ev => (ev.data.bind base64Decode).getD []) ∧
      (evs = [] → r' = r) ∧
      (evs ≠ [] →
        r'.file_size =
          (((cs ++ evs.map fun ev => (ev.data.bind base64Decode).getD []).map List.length)).sum ∧
        r'.stream_audio_url =
          some ((cs ++ evs.map fun ev => (ev.data.bind base64Decode).getD []).flatten)) := by
  induction evs with
  | nil =>
    intro r cs hid hcs _
    exact ⟨r, by simp [ingestEvents], hid, by simp [hcs], fun _ => rfl, by simp⟩
  | cons ev evs ih =>
    intro r cs hid hcs hall
    obtain ⟨hty, hsome⟩ := hall ev (by simp)
    obtain ⟨b, hb⟩ := Option.isSome_iff_exists.mp hsome
    obtain ⟨d, hd, hdb⟩ := Option.bind_eq_some.mp hb
    have hstep : handleStreamEvent [r] ev rid = ingestChunkInto b ev.chunk_count rid [r] :=
      handleStreamEvent_chunk [r] ev rid d b hty hd hdb
    have hone := ingestChunkInto_singleton b ev.chunk_count rid r hid
    have hrun : ingestEvents [r] (ev :: evs) rid
        = ingestEvents (handleStreamEvent [r] ev rid).1 evs rid := rfl
    rw [hrun, hstep, hone]
    obtain ⟨r', heq, hid', hchunks', hnil', hcons'⟩ :=
      ih ({ r with
          audio_chunks := some (r.audio_chunks.getD [] ++ [b])
          file_size := ((r.audio_chunks.getD [] ++ [b]).map List.length).sum
          stream_audio_url := some ((r.audio_chunks.getD [] ++ [b]).flatten) })
        (cs ++ [b]) hid (by simp [hcs]) (fun e he => hall e (by simp [he]))
    refine ⟨r', heq, hid', ?_, by simp, fun _ => ?_⟩
    · rw [hchunks']
      simp [hb, List.append_assoc]
    · constructor
      · rcases List.eq_nil_or_concat evs with hevs | _
        · subst hevs
          rw [hnil' rfl]
          simp [hcs, hb]
        · have := (hcons' (by {rename_i h; rcases h with ⟨l, a, rfl⟩; simp})).1
          rw [this]
          simp [hb, hcs, List.append_assoc]
      · rcases List.eq_nil_or_concat evs with hevs | _
        · subst hevs
          rw [hnil' rfl]
          simp [hcs, hb]
        · have := (hcons' (by {rename_i h; rcases h with ⟨l, a, rfl⟩; simp})).2
          rw [this]
          simp [hb, hcs, List.append_assoc]

end Yushu

namespace Yushu


/-! ### C2: ordered concatenation of decoded chunk payloads -/

/-- C2: ingesting any sequence of decodable `audio_chunk` events with
strictly increasing sequence numbers into a fresh result accumulates
exactly the ordered decoded payloads; `file_size` is the sum of the chunk
lengths and the playable blob is their concatenation. -/
theorem stream_buffer_concat (evs : List TTSStreamEvent) (rid : String) (r : SynthesisResult)
    (hid : r.id = rid) (hchunks : r.audio_chunks = some []) (hfs : r.file_size = 0)
    (hall : ∀ ev ∈ evs, ev.type = "audio_chunk" ∧ (ev.data.bind base64Decode).isSome)
    (hmono : List.Chain' (fun a b => a < b) (evs.map fun ev => ev.chunk_count.getD 0)) :
    ∃ r', ingestEvents [r] evs rid = [r'] ∧
      r'.audio_chunks = some (evs.map fun ev => (ev.data.bind base64Decode).getD []) ∧
      r'.file_size =
        ((evs.map fun ev => (ev.data.bind base64Decode).getD []).map List.length).sum ∧
      (evs ≠ [] → r'.stream_audio_url =
        some ((evs.map fun ev => (ev.data.bind base64Decode).getD []).flatten)) := by
  obtain ⟨r', heq, hid', hchunks', hnil, hcons⟩ :=
    ingestEvents_concat evs rid r [] hid hchunks hall
  refine ⟨r', heq, by simpa using hchunks', ?_, fun hne => by simpa using (hcons hne).2⟩
  rcases eq_or_ne evs [] with h | h
  · subst h
    rw [hnil rfl]
    simpa using hfs
  · simpa using (hcons h).1

/-- Witness for C2: "Hello" then "World" yields exactly the bytes of
"HelloWorld" with `file_size` 10. -/
theorem stream_buffer_concat_witness :
    (∃ r', ingestEvents [freshResult] [evHello, evWorld] "r1" = [r'] ∧
      r'.audio_chunks =
        some ([evHello, evWorld].map fun ev => (ev.data.bind base64Decode).getD []) ∧
      r'.file_size =
        (([evHello, evWorld].map fun ev =>
          (ev.data.bind base64Decode).getD []).map List.length).sum ∧
      (([evHello, evWorld] : List TTSStreamEvent) ≠ [] → r'.stream_audio_url =
        some (([evHello, evWorld].map fun ev =>
          (ev.data.bind base64Decode).getD []).flatten))) ∧
    (ingestEvents [freshResult] [evHello, evWorld] "r1").map SynthesisResult.stream_audio_url
      = [some [72, 101, 108, 108, 111, 87, 111, 114, 108, 100]] ∧
    (ingestEvents [freshResult] [evHello, evWorld] "r1").map SynthesisResult.file_size = [10] :=
  ⟨stream_buffer_concat [evHello, evWorld] "r1" freshResult rfl rfl rfl (by decide)
      (by simp [evHello, evWorld, List.chain'_cons, List.chain'_singleton]),
   by decide, by decide⟩

end Yushu

namespace Yushu

/-! ### C1: there is no sequence-number validation in the accumulator -/

/-- C1 counterexample: re-ingesting the already-accepted sequence-1 chunk
changes the buffer — the duplicate is appended, not dropped: the buffer
content gains a second copy of "Hello" and `file_size` doubles from 5 to
10 instead of staying at the single-copy length. -/
theorem duplicate_chunk_not_dropped_cex :
    c1Twice ≠ c1Once ∧
    c1Once.map SynthesisResult.file_size = [5] ∧
    c1Twice.map SynthesisResult.file_size = [10] ∧
    c1Twice.map SynthesisResult.audio_chunks =
      [some [[72, 101, 108, 108, 111], [72, 101, 108, 108, 111]]] := by
  decide

/-- C1 amended: the `audio_chunk` handler performs no sequence-number
validation at all — every event whose payload decodes is appended to the
matching result's buffer unconditionally, whatever its `chunk_count`
(duplicate, regressed or otherwise), growing `file_size` by the chunk
length; results with other ids are untouched. -/
theorem chunk_append_unconditional (results : List SynthesisResult) (ev : TTSStreamEvent)
    (rid : String) (d : String) (b : List Nat)
    (ht : ev.type = "audio_chunk") (hd : ev.data = some d) (hb : base64Decode d = some b) :
    List.Forall₂ (fun r r' =>
        (r.id = rid → r'.audio_chunks = some (r.audio_chunks.getD [] ++ [b]) ∧
          r'.file_size = ((r.audio_chunks.getD [] ++ [b]).map List.length).sum) ∧
        (r.id ≠ rid → r' = r))
      results (handleStreamEvent results ev rid).1 := by
  rw [handleStreamEvent_chunk results ev rid d b ht hd hb]
  induction results with
  | nil => exact List.Forall₂.nil
  | cons r rs ih =>
    rw [ingestChunkInto_cons]
    by_cases h : r.id = rid
    · rw [if_pos h]
      exact List.Forall₂.cons ⟨fun _ => ⟨rfl, rfl⟩, fun hne => absurd h hne⟩ ih
    · rw [if_neg h]
      exact List.Forall₂.cons ⟨fun hid => absurd hid h, fun _ => rfl⟩ ih

/-- Witness for C1's amended claim: applied to the state that already
ingested sequence 1 and to the same sequence-1 event again. -/
theorem chunk_append_unconditional_witness :
    List.Forall₂ (fun r r' =>
        (r.id = "r1" → r'.audio_chunks =
            some (r.audio_chunks.getD [] ++ [[72, 101, 108, 108, 111]]) ∧
          r'.file_size =
            ((r.audio_chunks.getD [] ++ [[72, 101, 108, 108, 111]]).map List.length).sum) ∧
        (r.id ≠ "r1" → r' = r))
      c1Once (handleStreamEvent c1Once evHello "r1").1 :=
  chunk_append_unconditional c1Once evHello "r1" "SGVsbG8=" [72, 101, 108, 108, 111]
    rfl rfl (by decide)

end Yushu

namespace Yushu

/-! ### C9: playback dispatch on `chunk_count === 1` -/

/-- C9: when an `audio_chunk` event with a decodable payload reaches a
results list containing the session's result, the handler issues a
playback call, and that call is `playStreamingAudio` (a fresh playback
start) exactly when `event.chunk_count === 1`; for every other
`chunk_count` it is `updateStreamingAudio` (replace the live source). -/
theorem ingestChunkInto_snd_cons (b : List Nat) (cc : Option Nat) (rid : String)
    (r : SynthesisResult) (rest : List SynthesisResult) :
    (ingestChunkInto b cc rid (r :: rest)).2 =
      if r.id = rid
        then (if cc = some 1
            then PlayAction.start rid ((r.audio_chunks.getD [] ++ [b]).flatten)
            else PlayAction.update rid ((r.audio_chunks.getD [] ++ [b]).flatten))
          :: (ingestChunkInto b cc rid rest).2
        else (ingestChunkInto b cc rid rest).2 := by
  rw [ingestChunkInto_cons]

theorem ingestChunkInto_actions_shape (b : List Nat) (cc : Option Nat) (rid : String)
    (results : List SynthesisResult) :
    ∀ a ∈ (ingestChunkInto b cc rid results).2,
      ∃ u, a = if cc = some 1 then PlayAction.start rid u else PlayAction.update rid u := by
  induction results with
  | nil => simp [ingestChunkInto]
  | cons r rs ih =>
    rw [ingestChunkInto_snd_cons]
    by_cases h : r.id = rid
    · rw [if_pos h]
      intro a ha
      rcases List.mem_cons.mp ha with ha | ha
      · exact ⟨(r.audio_chunks.getD [] ++ [b]).flatten, ha⟩
      · exact ih a ha
    · rw [if_neg h]
      exact ih

theorem ingestChunkInto_actions_ne_nil (b : List Nat) (cc : Option Nat) (rid : String)
    (results : List SynthesisResult) (hmem : ∃ r ∈ results, r.id = rid) :
    (ingestChunkInto b cc rid results).2 ≠ [] := by
  induction results with
  | nil => simp at hmem
  | cons r rs ih =>
    rw [ingestChunkInto_snd_cons]
    by_cases h : r.id = rid
    · rw [if_pos h]
      exact List.cons_ne_nil _ _
    · rw [if_neg h]
      rcases hmem with ⟨r0, hr0, hr0id⟩
      rcases List.mem_cons.mp hr0 with h0 | h0
      · exact absurd (h0 ▸ hr0id) h
      · exact ih ⟨r0, h0, hr0id⟩

/-- C9: when an `audio_chunk` event with a decodable payload reaches a
results list containing the session's result, the handler issues a
playback call, and that call is `playStreamingAudio` (a fresh playback
start) exactly when `event.chunk_count === 1`; for every other
`chunk_count` it is `updateStreamingAudio` (replace the live source). -/
theorem first_chunk_starts_playback (results : List SynthesisResult) (ev : TTSStreamEvent)
    (rid : String) (d : String) (b : List Nat)
    (ht : ev.type = "audio_chunk") (hd : ev.data = some d) (hb : base64Decode d = some b)
    (hmem : ∃ r ∈ results, r.id = rid) :
    (handleStreamEvent results ev rid).2 ≠ [] ∧
    ∀ a ∈ (handleStreamEvent results ev rid).2,
      ∃ u, a = if ev.chunk_count = some 1
        then PlayAction.start rid u else PlayAction.update rid u := by
  rw [handleStreamEvent_chunk results ev rid d b ht hd hb]
  exact ⟨ingestChunkInto_actions_ne_nil b ev.chunk_count rid results hmem,
    ingestChunkInto_actions_shape b ev.chunk_count rid results⟩

/-- Witness for C9: the first chunk (sequence 1) starts playback; the
second chunk (sequence 2) updates the live source instead. -/
theorem first_chunk_starts_playback_witness :
    (((handleStreamEvent [freshResult] evHello "r1").2 ≠ [] ∧
      ∀ a ∈ (handleStreamEvent [freshResult] evHello "r1").2,
        ∃ u, a = if evHello.chunk_count = some 1
          then PlayAction.start "r1" u else PlayAction.update "r1" u) ∧
     ((handleStreamEvent c1Once evWorld "r1").2 ≠ [] ∧
      ∀ a ∈ (handleStreamEvent c1Once evWorld "r1").2,
        ∃ u, a = if evWorld.chunk_count = some 1
          then PlayAction.start "r1" u else PlayAction.update "r1" u)) ∧
    (handleStreamEvent [freshResult] evHello "r1").2 =
      [PlayAction.start "r1" [72, 101, 108, 108, 111]] ∧
    (handleStreamEvent c1Once evWorld "r1").2 =
      [PlayAction.update "r1" [72, 101, 108, 108, 111, 87, 111, 114, 108, 100]] :=
  ⟨⟨first_chunk_starts_playback [freshResult] evHello "r1" "SGVsbG8=" [72, 101, 108, 108, 111]
      rfl rfl (by decide) ⟨freshResult, by decide, rfl⟩,
    first_chunk_starts_playback c1Once evWorld "r1" "V29ybGQ=" [87, 111, 114, 108, 100]
      rfl rfl (by decide) ⟨(handleStreamEvent [freshResult] evHello "r1").1.head (by decide),
        by decide, by decide⟩⟩,
   by decide, by decide⟩

end Yushu

namespace Yushu

/-! ### C10: terminal events touch only status, error and duration -/

/-- A patch with no audio fields leaves every field of every result except
`status`, `error` and `duration` unchanged, and results with other ids
entirely unchanged. -/
theorem updateResult_frame (results : List SynthesisResult) (rid : String) (u : ResultPatch)
    (hfs : u.file_size = none) (hac : u.audio_chunks = none) (hsu : u.stream_audio_url = none) :
    List.Forall₂ (fun r r' =>
        r'.id = r.id ∧ r'.text = r.text ∧ r'.provider = r.provider ∧ r'.voice = r.voice ∧
        r'.audio_length = r.audio_length ∧ r'.file_size = r.file_size ∧
        r'.download_url = r.download_url ∧ r'.timestamp = r.timestamp ∧
        r'.audio_chunks = r.audio_chunks ∧ r'.stream_audio_url = r.stream_audio_url ∧
        (r.id ≠ rid → r' = r))
      results (updateResult results rid u) := by
  induction results with
  | nil => exact List.Forall₂.nil
  | cons r rs ih =>
    refine List.Forall₂.cons ?_ ih
    by_cases h : r.id = rid
    · simp [updateResult, applyPatch, h, hfs, hac, hsu]
    · simp [updateResult, applyPatch, h]

/-- C10: processing a `complete`, `error` or `end` event issues no
playback call and leaves every result's `audio_chunks`, `file_size` and
`stream_audio_url` (and all other non-status fields) unchanged; only
`status`, `error` and `duration` of the result with the session's id may
change, and results with other ids are untouched. -/
theorem terminal_event_frame (results : List SynthesisResult) (ev : TTSStreamEvent)
    (rid : String)
    (h : ev.type = "complete" ∨ ev.type = "error" ∨ ev.type = "end") :
    (handleStreamEvent results ev rid).2 = [] ∧
    List.Forall₂ (fun r r' =>
        r'.id = r.id ∧ r'.text = r.text ∧ r'.provider = r.provider ∧ r'.voice = r.voice ∧
        r'.audio_length = r.audio_length ∧ r'.file_size = r.file_size ∧
        r'.download_url = r.download_url ∧ r'.timestamp = r.timestamp ∧
        r'.audio_chunks = r.audio_chunks ∧ r'.stream_audio_url = r.stream_audio_url ∧
        (r.id ≠ rid → r' = r))
      results (handleStreamEvent results ev rid).1 := by
  rcases h with h | h | h
  · constructor
    · simp [handleStreamEvent, h]
    · have := updateResult_frame results rid
        { status := some "completed", duration := some 0 } rfl rfl rfl
      simpa [handleStreamEvent, h] using this
  · constructor
    · simp [handleStreamEvent, h]
    · have := updateResult_frame results rid
        { status := some "error", error := some (ev.error.getD "未知错误") } rfl rfl rfl
      simpa [handleStreamEvent, h] using this
  · constructor
    · simp [handleStreamEvent, h]
    · have hself : ∀ r ∈ results, (fun (r r' : SynthesisResult) =>
          r'.id = r.id ∧ r'.text = r.text ∧ r'.provider = r.provider ∧ r'.voice = r.voice ∧
          r'.audio_length = r.audio_length ∧ r'.file_size = r.file_size ∧
          r'.download_url = r.download_url ∧ r'.timestamp = r.timestamp ∧
          r'.audio_chunks = r.audio_chunks ∧ r'.stream_audio_url = r.stream_audio_url ∧
          (r.id ≠ rid → r' = r)) r r :=
        fun r _ => ⟨rfl, rfl, rfl, rfl, rfl, rfl, rfl, rfl, rfl, rfl, fun _ => rfl⟩
      have : (handleStreamEvent results ev rid).1 = results := by simp [handleStreamEvent, h]
      rw [this]
      exact List.forall₂_same.mpr hself

/-- Witness for C10: an `error` event against a result holding two
accumulated chunks; everything but `status`/`error`/`duration` survives. -/
theorem terminal_event_frame_witness :
    ((handleStreamEvent c1Twice
        { type := "error", session_id := "s1", error := some "boom" } "r1").2 = [] ∧
     List.Forall₂ (fun r r' =>
        r'.id = r.id ∧ r'.text = r.text ∧ r'.provider = r.provider ∧ r'.voice = r.voice ∧
        r'.audio_length = r.audio_length ∧ r'.file_size = r.file_size ∧
        r'.download_url = r.download_url ∧ r'.timestamp = r.timestamp ∧
        r'.audio_chunks = r.audio_chunks ∧ r'.stream_audio_url = r.stream_audio_url ∧
        (r.id ≠ "r1" → r' = r))
      c1Twice (handleStreamEvent c1Twice
        { type := "error", session_id := "s1", error := some "boom" } "r1").1) ∧
    (handleStreamEvent c1Twice
        { type := "error", session_id := "s1", error := some "boom" } "r1").1.map
      SynthesisResult.file_size = [10] ∧
    (handleStreamEvent c1Twice
        { type := "error", session_id := "s1", error := some "boom" } "r1").1.map
      SynthesisResult.status = [some "error"] :=
  ⟨terminal_event_frame c1Twice
      { type := "error", session_id := "s1", error := some "boom" } "r1" (Or.inr (Or.inl rfl)),
   by decide, by decide⟩

end Yushu

namespace Yushu


/-! ### C3: at most one live playback session -/

/-- C3: starting a new streaming playback pauses the previous streaming
element (which moves, paused, to the released set) and the main element
before the new element plays — at most one element is live afterwards;
and in the presentation, a re-entrant play request for a different page
pauses and resets the single element strictly before the new `play()`
attempt, as the emitted operation trace shows. -/
theorem single_live_playback (st : TTSPlaybackState) (rid : String) (url : List Nat) (ok : Bool)
    (hdet : ∀ e ∈ st.detached, e.paused = true)
    (pst : PPTState) (documentId : String) (pok : Bool)
    (e0 : AudioElem (String × Nat)) (href : pst.audioRef = some e0)
    (hdiff : pst.currentAudioPage ≠ some (pst.currentSlideIndex + 1)) :
    (liveCount (playStreamingAudio st rid url ok) ≤ 1 ∧
     (∀ e, st.streamingAudioRef = some e →
        { e with paused := true } ∈ (playStreamingAudio st rid url ok).detached) ∧
     (∀ e, st.audioRef = some e →
        (playStreamingAudio st rid url ok).audioRef = some { e with paused := true })) ∧
    (playCurrentSlideAudio pst documentId pok).2 =
      [MediaOp.pauseElem, MediaOp.resetTime,
       MediaOp.setSrc (getSlideAudioUrl documentId (pst.currentSlideIndex + 1)),
       MediaOp.playAttempt (getSlideAudioUrl documentId (pst.currentSlideIndex + 1))] := by
  have hd0 : st.detached.countP (fun e => !e.paused) = 0 :=
    List.countP_eq_zero.mpr (fun e he => by simp [hdet e he])
  constructor
  · refine ⟨?_, ?_, ?_⟩
    · cases hA : st.audioRef <;> cases hS : st.streamingAudioRef <;>
        cases ok <;>
        simp [playStreamingAudio, liveCount, optLive, hA, hS, hd0, List.countP_cons]
    · intro e he
      simp [playStreamingAudio, he]
    · intro e he
      simp [playStreamingAudio, he]
  · have hcond : ¬(pst.isPlayingAudio = true ∧
        pst.currentAudioPage = some (pst.currentSlideIndex + 1)) :=
      fun hh => hdiff hh.2
    cases pok <;> simp [playCurrentSlideAudio, href, hcond]

/-- Witness for C3: a modal state with two live elements and a
presentation state playing a different page. -/
theorem single_live_playback_witness :
    (liveCount (playStreamingAudio demoTTSState "r1" [1, 2, 3] true) ≤ 1 ∧
     (∀ e, demoTTSState.streamingAudioRef = some e →
        { e with paused := true } ∈ (playStreamingAudio demoTTSState "r1" [1, 2, 3] true).detached) ∧
     (∀ e, demoTTSState.audioRef = some e →
        (playStreamingAudio demoTTSState "r1" [1, 2, 3] true).audioRef =
          some { e with paused := true })) ∧
    (playCurrentSlideAudio demoPPTState "doc" true).2 =
      [MediaOp.pauseElem, MediaOp.resetTime,
       MediaOp.setSrc (getSlideAudioUrl "doc" (demoPPTState.currentSlideIndex + 1)),
       MediaOp.playAttempt (getSlideAudioUrl "doc" (demoPPTState.currentSlideIndex + 1))] :=
  single_live_playback demoTTSState "r1" [1, 2, 3] true (by decide)
    demoPPTState "doc" true { src := ("doc", 2), paused := false, currentTime := 5 }
    (by decide) (by decide)

/-! ### C4: gapless source swap mid-playback -/

/-- C4: when a playing session's buffer grows and the live handle is
swapped (`updateStreamingAudio` with the session's id and a new, longer
decodable source), the new element's position equals the position captured
immediately before the swap, its source is the new url, and it is playing
again if the old one was playing — no restart from zero. -/
theorem position_preserved_on_swap (st : TTSPlaybackState) (rid : String) (url : List Nat)
    (dur : ℚ) (e : AudioElem (List Nat))
    (hlab : st.streamingAudio = some rid) (href : st.streamingAudioRef = some e)
    (ht0 : 0 ≤ e.currentTime) (htd : e.currentTime < dur) :
    ∃ e', (updateStreamingAudio st rid url dur true).streamingAudioRef = some e' ∧
      e'.currentTime = e.currentTime ∧ e'.src = url ∧
      (e.paused = false → e'.paused = false) := by
  simp only [updateStreamingAudio, hlab, href, if_pos rfl]
  refine ⟨_, rfl, ?_, rfl, ?_⟩
  · by_cases hpos : 0 < e.currentTime
    · simp [hpos, htd]
    · have h0 : e.currentTime = 0 := le_antisymm (not_lt.mp hpos) ht0
      simp [h0]
  · intro hp
    simp [hp]

/-- Witness for C4: playing at position 3, swapped to a 10-long source;
position stays 3 and playback continues. -/
theorem position_preserved_on_swap_witness :
    ∃ e', (updateStreamingAudio demoSwapState "r1" [1, 2, 3, 4] 10 true).streamingAudioRef
        = some e' ∧
      e'.currentTime = (3 : ℚ) ∧ e'.src = [1, 2, 3, 4] ∧
      (false = false → e'.paused = false) :=
  position_preserved_on_swap demoSwapState "r1" [1, 2, 3, 4] 10
    { src := [1], paused := false, currentTime := 3 } rfl rfl (by norm_num) (by norm_num)

end Yushu

namespace Yushu

/-! ### C5: auto-advance makes a single attempt, it does not poll -/

/-- C5 counterexample: a next segment that is unavailable on the
immediate attempt but available on the very next check (`c5Avail`).  The
spec's sequencer (`specNextSegmentStarts`, any poll bound ≥ 1) would start
it; `handleAudioEnded` makes exactly one attempt and halts with no
playback started — so the claimed poll-until-ready behaviour is false of
the code.  The index still advances to exactly 1. -/
theorem sequencer_no_polling_cex :
    specNextSegmentStarts c5Avail 1 = true ∧
    (handleAudioEnded c5PPTState "doc" (c5Avail 0)).isPlayingAudio = false ∧
    (handleAudioEnded c5PPTState "doc" (c5Avail 0)).currentAudioPage = none ∧
    (handleAudioEnded c5PPTState "doc" (c5Avail 0)).currentSlideIndex = 1 := by
  decide

/-- C5 amended: on playback end the sequencer advances to exactly
`currentIndex + 1` (never skipping) and makes a single immediate play
attempt for that segment; if the attempt succeeds the next page plays, if
it fails (segment unavailable) the rejection is caught — auto-play halts
silently with no exception and no polling/backoff loop. -/
theorem advance_exactly_one_single_attempt (st : PPTState) (documentId : String) (ok : Bool)
    (e : AudioElem (String × Nat))
    (hnext : st.currentSlideIndex + 1 < st.slidesLen) (href : st.audioRef = some e) :
    (handleAudioEnded st documentId ok).currentSlideIndex = st.currentSlideIndex + 1 ∧
    (ok = true → (handleAudioEnded st documentId ok).isPlayingAudio = true ∧
      (handleAudioEnded st documentId ok).currentAudioPage = some (st.currentSlideIndex + 2)) ∧
    (ok = false → (handleAudioEnded st documentId ok).isPlayingAudio = false ∧
      (handleAudioEnded st documentId ok).currentAudioPage = none) := by
  cases ok <;> simp [handleAudioEnded, hnext, href]

/-- Witness for C5's amended claim: both a successful and a failed single
attempt, from the same ended-playback state. -/
theorem advance_exactly_one_single_attempt_witness :
    ((handleAudioEnded c5PPTState "doc" true).currentSlideIndex = 1 ∧
     (true = true → (handleAudioEnded c5PPTState "doc" true).isPlayingAudio = true ∧
       (handleAudioEnded c5PPTState "doc" true).currentAudioPage = some 2) ∧
     (true = false → (handleAudioEnded c5PPTState "doc" true).isPlayingAudio = false ∧
       (handleAudioEnded c5PPTState "doc" true).currentAudioPage = none)) ∧
    ((handleAudioEnded c5PPTState "doc" false).currentSlideIndex = 1 ∧
     (false = true → (handleAudioEnded c5PPTState "doc" false).isPlayingAudio = true ∧
       (handleAudioEnded c5PPTState "doc" false).currentAudioPage = some 2) ∧
     (false = false → (handleAudioEnded c5PPTState "doc" false).isPlayingAudio = false ∧
       (handleAudioEnded c5PPTState "doc" false).currentAudioPage = none)) :=
  ⟨advance_exactly_one_single_attempt c5PPTState "doc" true
      { src := ("doc", 1), paused := true, currentTime := 0 } (by decide) (by decide),
   advance_exactly_one_single_attempt c5PPTState "doc" false
      { src := ("doc", 1), paused := true, currentTime := 0 } (by decide) (by decide)⟩

/-! ### C6: the conversion poller times out only at/after the deadline -/

/-- C6: `waitForPPTConversion` (i) throws its timeout error only when the
elapsed time is at least `maxWaitTime`, never before; (ii) a poll that
fails (throws or reports no fetchable artifact) is retried after the fixed
`checkInterval` against the same deadline; (iii) a poll that finds the
first artifact fetchable returns success immediately. -/
theorem poll_timeout_and_retry (poll : Nat → PollRes) (imgOk : Nat → Bool)
    (pollDur : Nat → Nat) (maxWaitTime : Nat) (fuel elapsed i : Nat) :
    (∀ t, waitForPPTConversion poll imgOk pollDur maxWaitTime fuel elapsed i =
        some (ConvOutcome.timeoutError, t) → maxWaitTime ≤ t) ∧
    (elapsed < maxWaitTime → slideReady (poll i) (imgOk i) = none →
      waitForPPTConversion poll imgOk pollDur maxWaitTime (fuel + 1) elapsed i =
        waitForPPTConversion poll imgOk pollDur maxWaitTime fuel
          (elapsed + pollDur i + checkInterval) (i + 1)) ∧
    (∀ slides, elapsed < maxWaitTime → slideReady (poll i) (imgOk i) = some slides →
      waitForPPTConversion poll imgOk pollDur maxWaitTime (fuel + 1) elapsed i =
        some (ConvOutcome.success slides i, elapsed + pollDur i)) := by
  refine ⟨?_, ?_, ?_⟩
  · induction fuel generalizing elapsed i with
    | zero => intro t h; simp [waitForPPTConversion] at h
    | succ n ih =>
      intro t h
      by_cases he : elapsed < maxWaitTime
      · rw [waitForPPTConversion, if_pos he] at h
        cases hr : slideReady (poll i) (imgOk i) with
        | some slides => rw [hr] at h; simp at h
        | none => rw [hr] at h; exact ih _ _ t h
      · rw [waitForPPTConversion, if_neg he] at h
        have := Option.some.inj h
        have ht : elapsed = t := (Prod.mk.injEq _ _ _ _ ▸ this).2
        exact ht ▸ le_of_not_lt he
  · intro he hr
    rw [waitForPPTConversion, if_pos he, hr]
  · intro slides he hr
    rw [waitForPPTConversion, if_pos he, hr]

/-- Witness for C6: a first poll that throws is retried `checkInterval`
later and the second poll succeeds at elapsed 3200 ms; a never-completing
job against a 5000 ms budget times out at 6200 ms ≥ 5000 ms. -/
theorem poll_timeout_and_retry_witness :
    (5000 : Nat) ≤ 6200 ∧
    waitForPPTConversion c6Poll (fun _ => true) (fun _ => 100) 5000 2 0 0 =
      some (ConvOutcome.success [c6Slide] 1, 3200) :=
  ⟨(poll_timeout_and_retry c6PollFail (fun _ => true) (fun _ => 100) 5000 3 0 0).1 6200
      (by decide),
   ((poll_timeout_and_retry c6Poll (fun _ => true) (fun _ => 100) 5000 1 0 0).2.1
      (by decide) (by decide)).trans
    ((poll_timeout_and_retry c6Poll (fun _ => true) (fun _ => 100) 5000 0 3100 1).2.2
      [c6Slide] (by decide) (by decide))⟩

end Yushu
